import Mathlib

/-!
Shallow embedding of the deployment lifecycle tracker and the schema
migration engine of the repository (files `src/db.py` and
`src/migrations/migrate.py`).

Modelling conventions:
* The SQLite database is a `Store`: the `schema_version` table is an
  `Option (List SchemaRow)` (`none` = the table does not exist yet), the
  other tables created by migrations are existence flags (migrations only
  `CREATE TABLE IF NOT EXISTS` them and never write rows into them), and
  the `deployment_metrics` table is an `Option MetricsDB` holding its rows
  plus the AUTOINCREMENT counter.
* `CURRENT_TIMESTAMP` is a `Nat` clock carried in the store.  SQLite's
  `CURRENT_TIMESTAMP` has one-second granularity and a migration run
  completes well within one second, so every `schema_version` insert of
  a run reads the same clock value: inserts stamp `clock` and do not
  advance it.  (`datetime.now().isoformat()`, used by the deployment
  tracker, has microsecond precision and is passed in as the
  `started_at` argument instead.)
* REAL durations are `ℚ`, NULLable columns are `Option _`.
* Fallible SQL statements are `Except String _`; a Python exception is the
  `.error` case.
-/

namespace Spec2Proof

/-! ## Data model: `deployment_metrics` rows (schema of migration v4) -/

/-- One row of the `deployment_metrics` table, as created by
`apply_migration_v4` in `src/migrations/migrate.py`. -/
structure DeploymentRow where
  id : Nat
  version : String
  previous_version : Option String
  deployment_started_at : Nat
  deployment_completed_at : Option Nat
  hostname : Option String
  os_version : Option String
  python_version : Option String
  extract_duration : Option ℚ
  venv_rebuild_duration : Option ℚ
  migration_duration : Option ℚ
  cutover_duration : Option ℚ
  total_duration : Option ℚ
  downtime_duration : Option ℚ
  health_check_success : Nat
  health_check_duration : Option ℚ
  time_to_healthy : Option String
  deployment_method : String
  deployment_status : String
  error_message : Option String
  notes : Option String
deriving DecidableEq

/-- The `deployment_metrics` table: its rows plus the AUTOINCREMENT
counter that supplies `id` (SQLite `lastrowid`). -/
structure MetricsDB where
  rows : List DeploymentRow
  next_id : Nat
deriving DecidableEq

/-! ## `src/db.py`: deployment lifecycle tracker -/

/-- `start_deployment_tracking` (src/db.py): inserts a new
`deployment_metrics` row with `deployment_status = 'in-progress'` and
returns `cursor.lastrowid`.  The plain `INSERT` hits the table's
`UNIQUE(version, deployment_started_at)` constraint, so a duplicate pair
raises (modeled as `.error`) and inserts nothing.  `started_at` is the
`datetime.now()` timestamp of the call. -/
def start_deployment_tracking (version : String) (previous_version : Option String)
    (hostname : Option String) (os_version : Option String)
    (python_version : Option String) (method : String)
    (started_at : Nat) (db : MetricsDB) : Except String (Nat × MetricsDB) :=
  if db.rows.any (fun r => r.version == version && r.deployment_started_at == started_at) then
    .error "UNIQUE constraint failed: deployment_metrics.version, deployment_metrics.deployment_started_at"
  else
    .ok (db.next_id,
      { rows := db.rows ++
          [{ id := db.next_id
             version := version
             previous_version := previous_version
             deployment_started_at := started_at
             deployment_completed_at := none
             hostname := hostname
             os_version := os_version
             python_version := python_version
             extract_duration := none
             venv_rebuild_duration := none
             migration_duration := none
             cutover_duration := none
             total_duration := none
             downtime_duration := none
             health_check_success := 0
             health_check_duration := none
             time_to_healthy := none
             deployment_method := method
             deployment_status := "in-progress"
             error_message := none
             notes := none }]
        next_id := db.next_id + 1 })

/-- The `**kwargs` field map accepted by `update_deployment_phase`
(src/db.py), enumerated over the updatable (non-`id`) columns of
`deployment_metrics`: an outer `none` means the field is not supplied
(the column keeps its value), `some v` means the column is set to `v`
(for a NULLable column `v` is itself an `Option`, `some none` setting the
column to NULL). -/
structure PhaseUpdate where
  version : Option String := none
  previous_version : Option (Option String) := none
  deployment_started_at : Option Nat := none
  deployment_completed_at : Option (Option Nat) := none
  hostname : Option (Option String) := none
  os_version : Option (Option String) := none
  python_version : Option (Option String) := none
  extract_duration : Option (Option ℚ) := none
  venv_rebuild_duration : Option (Option ℚ) := none
  migration_duration : Option (Option ℚ) := none
  cutover_duration : Option (Option ℚ) := none
  total_duration : Option (Option ℚ) := none
  downtime_duration : Option (Option ℚ) := none
  health_check_success : Option Nat := none
  health_check_duration : Option (Option ℚ) := none
  time_to_healthy : Option (Option String) := none
  deployment_method : Option String := none
  deployment_status : Option String := none
  error_message : Option (Option String) := none
  notes : Option (Option String) := none
deriving DecidableEq

/-- `if not fields: return` — the update is empty when no field is
supplied. -/
def PhaseUpdate.isEmpty (u : PhaseUpdate) : Bool :=
  u.version.isNone && u.previous_version.isNone && u.deployment_started_at.isNone &&
  u.deployment_completed_at.isNone && u.hostname.isNone && u.os_version.isNone &&
  u.python_version.isNone && u.extract_duration.isNone && u.venv_rebuild_duration.isNone &&
  u.migration_duration.isNone && u.cutover_duration.isNone && u.total_duration.isNone &&
  u.downtime_duration.isNone && u.health_check_success.isNone &&
  u.health_check_duration.isNone && u.time_to_healthy.isNone &&
  u.deployment_method.isNone && u.deployment_status.isNone &&
  u.error_message.isNone && u.notes.isNone

/-- The `SET f1 = ?, f2 = ?, ...` part of the dynamic UPDATE built by
`update_deployment_phase`: each supplied field is overwritten, every
other field keeps its value. -/
def PhaseUpdate.apply (u : PhaseUpdate) (r : DeploymentRow) : DeploymentRow :=
  { r with
    version := u.version.getD r.version
    previous_version := u.previous_version.getD r.previous_version
    deployment_started_at := u.deployment_started_at.getD r.deployment_started_at
    deployment_completed_at := u.deployment_completed_at.getD r.deployment_completed_at
    hostname := u.hostname.getD r.hostname
    os_version := u.os_version.getD r.os_version
    python_version := u.python_version.getD r.python_version
    extract_duration := u.extract_duration.getD r.extract_duration
    venv_rebuild_duration := u.venv_rebuild_duration.getD r.venv_rebuild_duration
    migration_duration := u.migration_duration.getD r.migration_duration
    cutover_duration := u.cutover_duration.getD r.cutover_duration
    total_duration := u.total_duration.getD r.total_duration
    downtime_duration := u.downtime_duration.getD r.downtime_duration
    health_check_success := u.health_check_success.getD r.health_check_success
    health_check_duration := u.health_check_duration.getD r.health_check_duration
    time_to_healthy := u.time_to_healthy.getD r.time_to_healthy
    deployment_method := u.deployment_method.getD r.deployment_method
    deployment_status := u.deployment_status.getD r.deployment_status
    error_message := u.error_message.getD r.error_message
    notes := u.notes.getD r.notes }

/-- `update_deployment_phase` (src/db.py): with no supplied field it
returns before touching the database; otherwise it runs
`UPDATE deployment_metrics SET ... WHERE id = ?`, rewriting exactly the
rows whose `id` matches. -/
def update_deployment_phase (deployment_id : Nat) (u : PhaseUpdate)
    (db : MetricsDB) : MetricsDB :=
  if u.isEmpty then db
  else
    { db with rows := db.rows.map (fun r => if r.id == deployment_id then u.apply r else r) }

/-- `complete_deployment` (src/db.py): one UPDATE that unconditionally
overwrites the eight completion columns of the rows whose `id` matches
(`deployment_completed_at` is `datetime.now()`, modeled as the `now`
argument; `health_check_success` is stored as `1`/`0`).  Python default
arguments (`status='success'`, the `None`s, `health_check_success=False`)
are passed explicitly here. -/
def complete_deployment (deployment_id : Nat) (status : String)
    (error_message : Option String) (total_duration : Option ℚ)
    (downtime_duration : Option ℚ) (health_check_success : Bool)
    (health_check_duration : Option ℚ) (time_to_healthy : Option String)
    (now : Nat) (db : MetricsDB) : MetricsDB :=
  { db with rows := db.rows.map (fun r =>
      if r.id == deployment_id then
        { r with
          deployment_completed_at := some now
          deployment_status := status
          error_message := error_message
          total_duration := total_duration
          downtime_duration := downtime_duration
          health_check_success := if health_check_success then 1 else 0
          health_check_duration := health_check_duration
          time_to_healthy := time_to_healthy }
      else r) }

/-! ## `get_deployment_statistics` (src/db.py)

The SQL aggregates are modeled the way SQLite computes them: each
aggregate folds over the qualifying rows keeping its running state
(`AVG` a sum and a count of the non-NULL inputs, `MIN`/`MAX` the best
non-NULL input so far, `SUM` the sum of the non-NULL inputs or NULL if
there was none), and the final value is extracted from that state. -/

/-- Running state of SQLite's `AVG`: sum and count of the non-NULL
inputs seen so far. -/
structure AvgState where
  sum : ℚ
  cnt : Nat
deriving DecidableEq

/-- One `AVG` step: NULL inputs are skipped. -/
def avgStep (a : AvgState) (v : Option ℚ) : AvgState :=
  match v with
  | none => a
  | some x => { sum := a.sum + x, cnt := a.cnt + 1 }

/-- SQLite `AVG` over a column: NULL when no non-NULL input was seen. -/
def sqlAvg (vs : List (Option ℚ)) : Option ℚ :=
  let a := vs.foldl avgStep { sum := 0, cnt := 0 }
  if a.cnt = 0 then none else some (a.sum / a.cnt)

/-- SQLite `MIN` over a column: NULL inputs are skipped, NULL when no
non-NULL input was seen. -/
def sqlMin (vs : List (Option ℚ)) : Option ℚ :=
  vs.foldl (fun acc v =>
    match v, acc with
    | none, a => a
    | some x, none => some x
    | some x, some a => some (min a x)) none

/-- SQLite `MAX` over a column: NULL inputs are skipped, NULL when no
non-NULL input was seen. -/
def sqlMax (vs : List (Option ℚ)) : Option ℚ :=
  vs.foldl (fun acc v =>
    match v, acc with
    | none, a => a
    | some x, none => some x
    | some x, some a => some (max a x)) none

/-- SQLite `SUM` over an integer expression that is never NULL (the
`CASE WHEN ... THEN 1 ELSE 0 END` expressions): NULL over an empty
input, the sum otherwise. -/
def sqlSum (vs : List Nat) : Option Nat :=
  vs.foldl (fun acc v =>
    match acc with
    | none => some v
    | some a => some (a + v)) none

/-- The single result row of the statistics query. -/
structure Stats where
  total_deployments : Nat
  avg_duration : Option ℚ
  avg_downtime : Option ℚ
  min_duration : Option ℚ
  max_duration : Option ℚ
  successful_deployments : Option Nat
  failed_deployments : Option Nat
  avg_health_check_time : Option ℚ
deriving DecidableEq

/-- `get_deployment_statistics` (src/db.py): all aggregates range over
the rows passing `WHERE deployment_status != 'in-progress'`;
`avg_health_check_time` averages
`CASE WHEN health_check_success = 1 THEN health_check_duration END`,
which is NULL (skipped) unless the row's health check succeeded. -/
def get_deployment_statistics (rows : List DeploymentRow) : Stats :=
  let q := rows.filter (fun r => !(r.deployment_status == "in-progress"))
  { total_deployments := q.length
    avg_duration := sqlAvg (q.map (fun r => r.total_duration))
    avg_downtime := sqlAvg (q.map (fun r => r.downtime_duration))
    min_duration := sqlMin (q.map (fun r => r.total_duration))
    max_duration := sqlMax (q.map (fun r => r.total_duration))
    successful_deployments :=
      sqlSum (q.map (fun r => if r.deployment_status == "success" then 1 else 0))
    failed_deployments :=
      sqlSum (q.map (fun r => if r.deployment_status == "failed" then 1 else 0))
    avg_health_check_time :=
      sqlAvg (q.map (fun r =>
        if r.health_check_success == 1 then r.health_check_duration else none)) }

/-! ## `src/migrations/migrate.py`: schema migration engine -/

/-- One row of the `schema_version` tracking table. -/
structure SchemaRow where
  version : Nat
  description : String
  applied_at : Nat
deriving DecidableEq

/-- The SQLite database file.  `schema_version` is `none` while that
table does not exist; the tables the migrations create (and their
indexes) are existence flags, since the migrations only
`CREATE ... IF NOT EXISTS` them; `deployment_metrics` carries its rows.
`clock` models the wall clock read by `CURRENT_TIMESTAMP`. -/
structure Store where
  schema_version : Option (List SchemaRow) := none
  dicom_studies : Bool := false
  gateway_logs : Bool := false
  performance_metrics : Bool := false
  idx_metrics_timestamp : Bool := false
  deployment_history : Bool := false
  idx_deployment_version : Bool := false
  idx_deployment_date : Bool := false
  deployment_metrics : Option MetricsDB := none
  idx_metrics_version : Bool := false
  idx_metrics_started : Bool := false
  idx_metrics_status : Bool := false
  clock : Nat := 0
deriving DecidableEq

/-- The row produced by
`SELECT version FROM schema_version ORDER BY applied_at DESC LIMIT 1`:
a row with the greatest `applied_at`.  SQLite leaves the order of rows
with equal `applied_at` unspecified, so among tied rows it may return
any one; the model fixes one admissible resolution (the row stored later
in the table wins a tie).  The theorems below rely only on the property
shared by every admissible resolution — the returned row carries a
maximal `applied_at` (`latestRow_spec`) — except where they explicitly
compute the model's own pick on a concrete store. -/
def latestRow : List SchemaRow → Option SchemaRow
  | [] => none
  | r :: rest =>
    match latestRow rest with
    | none => some r
    | some b => if r.applied_at > b.applied_at then some r else some b

/-- `get_schema_version` (src/migrations/migrate.py): the `version` of
the most recently applied row; `0` when the query returns no row, and
`0` when the table does not exist (the `sqlite3.OperationalError`
branch). -/
def get_schema_version (t : Option (List SchemaRow)) : Nat :=
  match t with
  | none => 0
  | some rows =>
    match latestRow rows with
    | none => 0
    | some r => r.version

/-- `create_schema_version_table` (src/migrations/migrate.py):
`CREATE TABLE IF NOT EXISTS schema_version (...)`. -/
def create_schema_version_table (s : Store) : Store :=
  match s.schema_version with
  | none => { s with schema_version := some [] }
  | some _ => s

/-- `INSERT OR IGNORE INTO schema_version (version, description)
VALUES (v, d)`: an error if the table does not exist, a no-op if a row
with this `version` (the primary key) is already present, and otherwise
an insert stamped `applied_at = CURRENT_TIMESTAMP`.  The stamp is the
store's clock, which the engine does not advance: `CURRENT_TIMESTAMP`
has one-second granularity, so all inserts of one run carry the same
stamp. -/
def insert_schema_version (v : Nat) (d : String) (s : Store) : Except String Store :=
  match s.schema_version with
  | none => .error "no such table: schema_version"
  | some rows =>
    if rows.any (fun r => r.version == v) then .ok s
    else .ok { s with
      schema_version := some (rows ++ [{ version := v, description := d, applied_at := s.clock }]) }

/-- The `CREATE TABLE IF NOT EXISTS` statements of `apply_migration_v1`
(tables `dicom_studies` and `gateway_logs`). -/
def creates_v1 (s : Store) : Store :=
  { s with dicom_studies := true, gateway_logs := true }

/-- `apply_migration_v1` (src/migrations/migrate.py). -/
def apply_migration_v1 (s : Store) : Except String Store :=
  insert_schema_version 1 "Initial schema - DICOM studies and logs" (creates_v1 s)

/-- The `CREATE TABLE`/`CREATE INDEX ... IF NOT EXISTS` statements of
`apply_migration_v2` (`performance_metrics` and its timestamp index). -/
def creates_v2 (s : Store) : Store :=
  { s with performance_metrics := true, idx_metrics_timestamp := true }

/-- `apply_migration_v2` (src/migrations/migrate.py). -/
def apply_migration_v2 (s : Store) : Except String Store :=
  insert_schema_version 2 "Added performance metrics table" (creates_v2 s)

/-- The `CREATE TABLE`/`CREATE INDEX ... IF NOT EXISTS` statements of
`apply_migration_v3` (`deployment_history` and its two indexes). -/
def creates_v3 (s : Store) : Store :=
  { s with deployment_history := true, idx_deployment_version := true,
           idx_deployment_date := true }

/-- `apply_migration_v3` (src/migrations/migrate.py). -/
def apply_migration_v3 (s : Store) : Except String Store :=
  insert_schema_version 3 "Added deployment history tracking" (creates_v3 s)

/-- The `CREATE TABLE`/`CREATE INDEX ... IF NOT EXISTS` statements of
`apply_migration_v4` (`deployment_metrics`, created empty with its
AUTOINCREMENT counter at 1, and its three indexes). -/
def creates_v4 (s : Store) : Store :=
  { s with
    deployment_metrics := some (s.deployment_metrics.getD { rows := [], next_id := 1 })
    idx_metrics_version := true, idx_metrics_started := true, idx_metrics_status := true }

/-- `apply_migration_v4` (src/migrations/migrate.py). -/
def apply_migration_v4 (s : Store) : Except String Store :=
  insert_schema_version 4 "Enhanced deployment metrics with VM info and phase timing" (creates_v4 s)

/-- A migration step as `main` sees it: the step's whole body including
its final `conn.commit()`; an `.error` is a Python exception raised
before the commit, after which `main`'s `conn.rollback()` discards the
step's uncommitted changes. -/
abbrev MStep := Store → Except String Store

/-- The migration registry `MIGRATIONS` (src/migrations/migrate.py). -/
def MIGRATIONS : Nat → Option MStep
  | 1 => some apply_migration_v1
  | 2 => some apply_migration_v2
  | 3 => some apply_migration_v3
  | 4 => some apply_migration_v4
  | _ => none

/-- `TARGET_VERSION = max(MIGRATIONS.keys())`. -/
def TARGET_VERSION : Nat := 4

/-- Outcome of a migration run: the process exit code, the committed
database, and the versions for which a "Migration not found" warning was
printed. -/
structure RunResult where
  exit : Nat
  store : Store
  warnings : List Nat
deriving DecidableEq

/-- The `for version in range(current_version + 1, TARGET_VERSION + 1)`
loop of `main`, over an arbitrary registry: a registered step that
returns commits its result; a registered step that raises aborts the run
with exit code 1 and the store rolled back to the last committed state;
an unregistered version is warned about and skipped. -/
def runRange (registry : Nat → Option MStep) :
    List Nat → Store → List Nat → RunResult
  | [], s, w => { exit := 0, store := s, warnings := w }
  | v :: rest, s, w =>
    match registry v with
    | some step =>
      match step s with
      | .ok s' => runRange registry rest s' w
      | .error _ => { exit := 1, store := s, warnings := w }
    | none => runRange registry rest s (w ++ [v])

/-- `main` (src/migrations/migrate.py), parameterised by the step
registry and the target version (in the source these are the module
globals `MIGRATIONS` and `TARGET_VERSION`): ensure the tracking table
exists, read the current version, stop with exit 0 if it already reaches
the target, and otherwise run the pending range. -/
def migrate_main (registry : Nat → Option MStep) (target : Nat)
    (s0 : Store) : RunResult :=
  let s1 := create_schema_version_table s0
  let cur := get_schema_version s1.schema_version
  if target ≤ cur then { exit := 0, store := s1, warnings := [] }
  else runRange registry (List.range' (cur + 1) (target - cur)) s1 []

/-! ## Helper definitions for the statements -/

/-- Modelled from the spec: the "highest applied version" recorded in
the `schema_version` table (`0` for an empty table). -/
def maxVersion : List SchemaRow → Nat
  | [] => 0
  | r :: rest => max r.version (maxVersion rest)

/-- The rows of the `schema_version` table, empty if it does not exist. -/
def storeRows (s : Store) : List SchemaRow :=
  s.schema_version.getD []

/-- The `version` column of the `schema_version` table. -/
def schemaVersions (rows : List SchemaRow) : List Nat :=
  rows.map (fun r => r.version)

/-! ## Lemmas about `latestRow` and `maxVersion` -/

lemma latestRow_cons (a : SchemaRow) (rest : List SchemaRow) :
    latestRow (a :: rest) =
      match latestRow rest with
      | none => some a
      | some b => if a.applied_at > b.applied_at then some a else some b := rfl

lemma latestRow_eq_none_iff (rows : List SchemaRow) :
    latestRow rows = none ↔ rows = [] := by
  cases rows with
  | nil => simp [latestRow]
  | cons r rest =>
    rw [latestRow_cons]
    cases hl : latestRow rest with
    | none => simp
    | some b =>
      simp only []
      constructor
      · intro h
        split at h <;> exact absurd h (by simp)
      · intro h
        exact absurd h (by simp)

lemma latestRow_spec (rows : List SchemaRow) (r : SchemaRow)
    (h : latestRow rows = some r) :
    r ∈ rows ∧ ∀ x ∈ rows, x.applied_at ≤ r.applied_at := by
  induction rows generalizing r with
  | nil => simp [latestRow] at h
  | cons a rest ih =>
    rw [latestRow_cons] at h
    cases hl : latestRow rest with
    | none =>
      rw [hl] at h
      simp only [] at h
      have hrest : rest = [] := (latestRow_eq_none_iff rest).mp hl
      injection h with h
      subst h
      subst hrest
      simp
    | some b =>
      rw [hl] at h
      simp only [] at h
      obtain ⟨hbmem, hball⟩ := ih b hl
      by_cases hc : a.applied_at > b.applied_at
      · rw [if_pos hc] at h
        injection h with h
        subst h
        refine ⟨List.mem_cons_self _ _, ?_⟩
        intro x hx
        rcases List.mem_cons.mp hx with hx | hx
        · subst hx; exact le_refl _
        · exact le_trans (hball x hx) (le_of_lt hc)
      · rw [if_neg hc] at h
        injection h with h
        subst h
        refine ⟨List.mem_cons_of_mem _ hbmem, ?_⟩
        intro x hx
        rcases List.mem_cons.mp hx with hx | hx
        · subst hx; omega
        · exact hball x hx

lemma le_maxVersion (rows : List SchemaRow) :
    ∀ r ∈ rows, r.version ≤ maxVersion rows := by
  induction rows with
  | nil => simp
  | cons a rest ih =>
    intro r hr
    rcases List.mem_cons.mp hr with hr | hr
    · subst hr; simp [maxVersion]
    · exact le_trans (ih r hr) (by simp [maxVersion])

lemma maxVersion_le (rows : List SchemaRow) (b : Nat)
    (h : ∀ r ∈ rows, r.version ≤ b) : maxVersion rows ≤ b := by
  induction rows with
  | nil => simp [maxVersion]
  | cons a rest ih =>
    simp only [maxVersion, max_le_iff]
    exact ⟨h a (List.mem_cons_self _ _), ih fun r hr => h r (List.mem_cons_of_mem _ hr)⟩

/-- When the order of the `applied_at` stamps agrees with the order of
the versions, the most recently applied row carries the highest
version. -/
lemma latest_eq_max (rows : List SchemaRow) (hne : rows ≠ [])
    (hcons : ∀ r ∈ rows, ∀ x ∈ rows, r.version ≤ x.version ↔ r.applied_at ≤ x.applied_at) :
    get_schema_version (some rows) = maxVersion rows := by
  cases h : latestRow rows with
  | none => exact absurd ((latestRow_eq_none_iff rows).mp h) hne
  | some r =>
    obtain ⟨hmem, hall⟩ := latestRow_spec rows r h
    have h1 : maxVersion rows ≤ r.version :=
      maxVersion_le rows r.version fun x hx => (hcons x hx r hmem).mpr (hall x hx)
    have h2 : r.version ≤ maxVersion rows := le_maxVersion rows r hmem
    simp only [get_schema_version, h]
    omega

/-! ## Claim C1 -/

/-- A table state in which the row with the lower version was applied
later: `version 2` stamped at time 5, `version 1` stamped at time 9. -/
def c1rows : List SchemaRow := [⟨2, "b", 5⟩, ⟨1, "a", 9⟩]

/-- C1 counterexample: `get_schema_version` does not return the highest
applied version for every store state.  On `c1rows` the highest version
is 2, but the query orders by `applied_at`, so it returns 1. -/
theorem currentVersion_counterexample :
    get_schema_version (some c1rows) = 1 ∧ maxVersion c1rows = 2 := by decide

/-- C1 (amended): `get_schema_version` returns 0 when the
`schema_version` table does not exist and when it is empty.  On a
non-empty table it returns the version of one of the most recently
applied rows — a row whose `applied_at` is maximal; among tied rows
SQLite does not specify which, and rows written within a single run
share one second-granularity `CURRENT_TIMESTAMP` stamp, so ties do
occur.  Whenever the table's `applied_at` order agrees with its version
order (which a tied table need not satisfy), the returned version is the
highest applied version. -/
theorem currentVersion_amended :
    get_schema_version none = 0 ∧
    get_schema_version (some []) = 0 ∧
    (∀ rows : List SchemaRow, rows ≠ [] →
      ∃ r ∈ rows, get_schema_version (some rows) = r.version ∧
        ∀ x ∈ rows, x.applied_at ≤ r.applied_at) ∧
    ∀ rows : List SchemaRow, rows ≠ [] →
      (∀ r ∈ rows, ∀ x ∈ rows, r.version ≤ x.version ↔ r.applied_at ≤ x.applied_at) →
      get_schema_version (some rows) = maxVersion rows := by
  refine ⟨rfl, rfl, ?_, ?_⟩
  · intro rows hne
    cases h : latestRow rows with
    | none => exact absurd ((latestRow_eq_none_iff rows).mp h) hne
    | some r =>
      obtain ⟨hmem, hall⟩ := latestRow_spec rows r h
      refine ⟨r, hmem, ?_, hall⟩
      simp only [get_schema_version, h]
  · intro rows hne hcons
    exact latest_eq_max rows hne hcons

/-- Rows applied in version order with strictly increasing stamps. -/
def c1wrows : List SchemaRow := [⟨1, "a", 0⟩, ⟨2, "b", 1⟩]

theorem currentVersion_amended_witness :
    get_schema_version none = 0 ∧
    (∃ r ∈ c1wrows, get_schema_version (some c1wrows) = r.version ∧
      ∀ x ∈ c1wrows, x.applied_at ≤ r.applied_at) ∧
    get_schema_version (some c1wrows) = maxVersion c1wrows :=
  ⟨currentVersion_amended.1,
   currentVersion_amended.2.2.1 c1wrows (by decide),
   currentVersion_amended.2.2.2 c1wrows (by decide) (by decide)⟩

/-! ## Claim C6 -/

/-- A fresh database: no tables at all. -/
def freshStore : Store := {}

/-- C6 counterexample: the four `schema_version` rows written by a
fresh `main` run do not carry strictly increasing `applied_at` stamps —
all four inserts execute within one second-granularity
`CURRENT_TIMESTAMP` tick, so the stamps coincide. -/
theorem fresh_store_scenario_counterexample :
    ¬ List.Chain' (fun a b => a < b)
      ((storeRows (migrate_main MIGRATIONS TARGET_VERSION freshStore).store).map
        (fun r => r.applied_at)) := by
  have h : (storeRows (migrate_main MIGRATIONS TARGET_VERSION freshStore).store).map
      (fun r => r.applied_at) = [0, 0, 0, 0] := by decide
  rw [h]
  simp [List.chain'_cons]

/-- C6 (amended): on a fresh store the current version is 0; one `main`
run exits 0 and leaves exactly the four `schema_version` rows for
versions 1..4, one each.  Their `applied_at` stamps are equal (the run
completes within one `CURRENT_TIMESTAMP` tick), hence non-decreasing
rather than strictly increasing; and `get_schema_version` afterwards
returns the version of one of the four rows — they are all tied for
most recently applied, and SQLite does not specify which tied row the
read-back picks. -/
theorem fresh_store_migration_scenario :
    get_schema_version freshStore.schema_version = 0 ∧
    (migrate_main MIGRATIONS TARGET_VERSION freshStore).exit = 0 ∧
    (migrate_main MIGRATIONS TARGET_VERSION freshStore).store.schema_version =
      some [⟨1, "Initial schema - DICOM studies and logs", 0⟩,
            ⟨2, "Added performance metrics table", 0⟩,
            ⟨3, "Added deployment history tracking", 0⟩,
            ⟨4, "Enhanced deployment metrics with VM info and phase timing", 0⟩] ∧
    schemaVersions (storeRows (migrate_main MIGRATIONS TARGET_VERSION freshStore).store) =
      [1, 2, 3, 4] ∧
    List.Chain' (fun a b => a ≤ b)
      ((storeRows (migrate_main MIGRATIONS TARGET_VERSION freshStore).store).map
        (fun r => r.applied_at)) ∧
    get_schema_version
        (migrate_main MIGRATIONS TARGET_VERSION freshStore).store.schema_version ∈
      schemaVersions (storeRows (migrate_main MIGRATIONS TARGET_VERSION freshStore).store) := by
  refine ⟨by decide, by decide, by decide, by decide, ?_, by decide⟩
  have h : (storeRows (migrate_main MIGRATIONS TARGET_VERSION freshStore).store).map
      (fun r => r.applied_at) = [0, 0, 0, 0] := by decide
  rw [h]
  simp [List.chain'_cons]

/-! ## Claim C7 -/

/-- C7: the `UNIQUE(version, deployment_started_at)` constraint.  First
part: starting a deployment whose `(version, started_at)` pair is
already present raises instead of inserting.  Second part: of two
`start_deployment_tracking` calls with the same version at the same
instant, the second raises — it never silently creates a second record
with the same pair. -/
theorem start_deployment_rejects_duplicate :
    (∀ (db : MetricsDB) (v : String) (pv hn os py : Option String) (m : String) (t : Nat),
      (db.rows.any fun r => r.version == v && r.deployment_started_at == t) = true →
      ∃ e, start_deployment_tracking v pv hn os py m t db = .error e) ∧
    (∀ (db : MetricsDB) (v : String) (pv hn os py : Option String) (m : String)
       (t i : Nat) (db₁ : MetricsDB) (pv₂ hn₂ os₂ py₂ : Option String) (m₂ : String),
      start_deployment_tracking v pv hn os py m t db = .ok (i, db₁) →
      ∃ e, start_deployment_tracking v pv₂ hn₂ os₂ py₂ m₂ t db₁ = .error e) := by
  constructor
  · intro db v pv hn os py m t hany
    exact ⟨_, by unfold start_deployment_tracking; rw [if_pos hany]⟩
  · intro db v pv hn os py m t i db₁ pv₂ hn₂ os₂ py₂ m₂ hok
    unfold start_deployment_tracking at hok
    by_cases hc : (db.rows.any fun r => r.version == v && r.deployment_started_at == t) = true
    · rw [if_pos hc] at hok
      simp at hok
    · rw [if_neg hc] at hok
      injection hok with hok
      injection hok with hok1 hok2
      subst hok2
      exact ⟨_, by unfold start_deployment_tracking; rw [if_pos (by simp [List.any_append])]⟩

/-- An empty `deployment_metrics` table. -/
def dbEmptyW : MetricsDB := { rows := [], next_id := 1 }

/-- The table after one successful `start_deployment_tracking` call on
`dbEmptyW`. -/
def db1W : MetricsDB :=
  { rows := [{ id := 1, version := "2.3.0", previous_version := none,
               deployment_started_at := 5, deployment_completed_at := none,
               hostname := none, os_version := none, python_version := none,
               extract_duration := none, venv_rebuild_duration := none,
               migration_duration := none, cutover_duration := none,
               total_duration := none, downtime_duration := none,
               health_check_success := 0, health_check_duration := none,
               time_to_healthy := none, deployment_method := "manual",
               deployment_status := "in-progress", error_message := none,
               notes := none }],
    next_id := 2 }

theorem start_deployment_rejects_duplicate_witness :
    start_deployment_tracking "2.3.0" none none none none "manual" 5 dbEmptyW = .ok (1, db1W) ∧
    ∃ e, start_deployment_tracking "2.3.0" none none none none "manual" 5 db1W = .error e :=
  ⟨rfl,
   start_deployment_rejects_duplicate.2 dbEmptyW "2.3.0" none none none none "manual"
     5 1 db1W none none none none "manual" rfl⟩

/-! ## Claim C9 -/

lemma phaseUpdate_isEmpty_iff (u : PhaseUpdate) : u.isEmpty = true ↔ u = {} := by
  rcases u with ⟨f1, f2, f3, f4, f5, f6, f7, f8, f9, f10, f11, f12, f13, f14, f15, f16,
    f17, f18, f19, f20⟩
  simp [PhaseUpdate.isEmpty, PhaseUpdate.mk.injEq, Option.isNone_iff_eq_none, and_assoc]

/-- C9: `update_deployment_phase` is a partial update.  An empty field
map leaves the whole store untouched; for a non-empty map, `next_id` and
the number of rows never change, rows whose `id` differs are untouched,
and on the matching row each supplied field is overwritten and every
unsupplied field keeps its value. -/
theorem update_phase_partial_update :
    (∀ (dep : Nat) (u : PhaseUpdate) (db : MetricsDB),
        u.isEmpty = true → update_deployment_phase dep u db = db) ∧
    (∀ (dep : Nat) (u : PhaseUpdate) (db : MetricsDB),
        (update_deployment_phase dep u db).next_id = db.next_id ∧
        (update_deployment_phase dep u db).rows.length = db.rows.length) ∧
    (∀ (dep : Nat) (u : PhaseUpdate) (db : MetricsDB) (i : Nat)
        (h1 : i < db.rows.length) (h2 : i < (update_deployment_phase dep u db).rows.length),
        (db.rows[i].id ≠ dep → (update_deployment_phase dep u db).rows[i] = db.rows[i]) ∧
        (db.rows[i].id = dep →
          (update_deployment_phase dep u db).rows[i].id = db.rows[i].id ∧
          (update_deployment_phase dep u db).rows[i].version =
            u.version.getD db.rows[i].version ∧
          (update_deployment_phase dep u db).rows[i].previous_version =
            u.previous_version.getD db.rows[i].previous_version ∧
          (update_deployment_phase dep u db).rows[i].deployment_started_at =
            u.deployment_started_at.getD db.rows[i].deployment_started_at ∧
          (update_deployment_phase dep u db).rows[i].deployment_completed_at =
            u.deployment_completed_at.getD db.rows[i].deployment_completed_at ∧
          (update_deployment_phase dep u db).rows[i].hostname =
            u.hostname.getD db.rows[i].hostname ∧
          (update_deployment_phase dep u db).rows[i].os_version =
            u.os_version.getD db.rows[i].os_version ∧
          (update_deployment_phase dep u db).rows[i].python_version =
            u.python_version.getD db.rows[i].python_version ∧
          (update_deployment_phase dep u db).rows[i].extract_duration =
            u.extract_duration.getD db.rows[i].extract_duration ∧
          (update_deployment_phase dep u db).rows[i].venv_rebuild_duration =
            u.venv_rebuild_duration.getD db.rows[i].venv_rebuild_duration ∧
          (update_deployment_phase dep u db).rows[i].migration_duration =
            u.migration_duration.getD db.rows[i].migration_duration ∧
          (update_deployment_phase dep u db).rows[i].cutover_duration =
            u.cutover_duration.getD db.rows[i].cutover_duration ∧
          (update_deployment_phase dep u db).rows[i].total_duration =
            u.total_duration.getD db.rows[i].total_duration ∧
          (update_deployment_phase dep u db).rows[i].downtime_duration =
            u.downtime_duration.getD db.rows[i].downtime_duration ∧
          (update_deployment_phase dep u db).rows[i].health_check_success =
            u.health_check_success.getD db.rows[i].health_check_success ∧
          (update_deployment_phase dep u db).rows[i].health_check_duration =
            u.health_check_duration.getD db.rows[i].health_check_duration ∧
          (update_deployment_phase dep u db).rows[i].time_to_healthy =
            u.time_to_healthy.getD db.rows[i].time_to_healthy ∧
          (update_deployment_phase dep u db).rows[i].deployment_method =
            u.deployment_method.getD db.rows[i].deployment_method ∧
          (update_deployment_phase dep u db).rows[i].deployment_status =
            u.deployment_status.getD db.rows[i].deployment_status ∧
          (update_deployment_phase dep u db).rows[i].error_message =
            u.error_message.getD db.rows[i].error_message ∧
          (update_deployment_phase dep u db).rows[i].notes =
            u.notes.getD db.rows[i].notes)) := by
  refine ⟨?_, ?_, ?_⟩
  · intro dep u db hu
    simp [update_deployment_phase, hu]
  · intro dep u db
    by_cases he : u.isEmpty = true <;>
      simp [update_deployment_phase, he]
  · intro dep u db i h1 h2
    by_cases he : u.isEmpty = true
    · have hu : u = {} := (phaseUpdate_isEmpty_iff u).mp he
      subst hu
      constructor
      · intro _
        simp [update_deployment_phase, PhaseUpdate.isEmpty]
      · intro _
        simp [update_deployment_phase, PhaseUpdate.isEmpty]
    · rw [Bool.not_eq_true] at he
      constructor
      · intro hid
        simp [update_deployment_phase, he, hid]
      · intro hid
        simp [update_deployment_phase, he, hid, PhaseUpdate.apply]

/-- A two-row table used by the C9 and C10 witnesses. -/
def dbCW : MetricsDB :=
  { rows := [{ id := 1, version := "2.3.0", previous_version := some "2.2.9",
               deployment_started_at := 5, deployment_completed_at := none,
               hostname := some "host-a", os_version := none, python_version := none,
               extract_duration := some (25/2), venv_rebuild_duration := none,
               migration_duration := none, cutover_duration := none,
               total_duration := none, downtime_duration := none,
               health_check_success := 0, health_check_duration := none,
               time_to_healthy := none, deployment_method := "manual",
               deployment_status := "in-progress", error_message := none,
               notes := none },
             { id := 2, version := "2.2.9", previous_version := none,
               deployment_started_at := 1, deployment_completed_at := some 3,
               hostname := none, os_version := none, python_version := none,
               extract_duration := none, venv_rebuild_duration := none,
               migration_duration := none, cutover_duration := none,
               total_duration := some 30, downtime_duration := some 4,
               health_check_success := 1, health_check_duration := some 2,
               time_to_healthy := none, deployment_method := "manual",
               deployment_status := "success", error_message := none,
               notes := none }],
    next_id := 3 }

/-- A field map supplying only `migration_duration`. -/
def uW : PhaseUpdate := { migration_duration := some (some (31/10)) }

theorem update_phase_partial_update_witness :
    (({} : PhaseUpdate).isEmpty = true) ∧
    update_deployment_phase 1 {} dbCW = dbCW ∧
    (0 : Nat) < dbCW.rows.length ∧
    dbCW.rows[1].id ≠ 1 ∧
    (update_deployment_phase 1 uW dbCW).rows[1] = dbCW.rows[1] ∧
    (update_deployment_phase 1 uW dbCW).rows[0].migration_duration =
      uW.migration_duration.getD dbCW.rows[0].migration_duration ∧
    (update_deployment_phase 1 uW dbCW).rows[0].extract_duration =
      uW.extract_duration.getD dbCW.rows[0].extract_duration :=
  ⟨by decide,
   update_phase_partial_update.1 1 {} dbCW (by decide),
   by decide,
   by decide,
   (update_phase_partial_update.2.2 1 uW dbCW 1 (by decide) (by decide)).1 (by decide),
   ((update_phase_partial_update.2.2 1 uW dbCW 0 (by decide) (by decide)).2 (by decide)).2.2.2.2.2.2.2.2.2.2.1,
   ((update_phase_partial_update.2.2 1 uW dbCW 0 (by decide) (by decide)).2 (by decide)).2.2.2.2.2.2.2.2.1⟩

/-! ## Claim C10 -/

/-- C10: `complete_deployment` unconditionally overwrites the eight
completion columns of the matching row (an unsupplied optional argument,
passed as its Python default, stores NULL/false), leaves every other
column of that row and every other row untouched, and a repeated
completion overwrites the earlier one. -/
theorem complete_deployment_overwrites :
    (∀ (dep : Nat) (st : String) (err : Option String) (td dd : Option ℚ) (hb : Bool)
       (hd : Option ℚ) (th : Option String) (now : Nat) (db : MetricsDB),
        (complete_deployment dep st err td dd hb hd th now db).next_id = db.next_id ∧
        (complete_deployment dep st err td dd hb hd th now db).rows.length =
          db.rows.length) ∧
    (∀ (dep : Nat) (st : String) (err : Option String) (td dd : Option ℚ) (hb : Bool)
       (hd : Option ℚ) (th : Option String) (now : Nat) (db : MetricsDB) (i : Nat)
       (h1 : i < db.rows.length)
       (h2 : i < (complete_deployment dep st err td dd hb hd th now db).rows.length),
        (db.rows[i].id ≠ dep →
          (complete_deployment dep st err td dd hb hd th now db).rows[i] = db.rows[i]) ∧
        (db.rows[i].id = dep →
          (complete_deployment dep st err td dd hb hd th now db).rows[i].deployment_completed_at = some now ∧
          (complete_deployment dep st err td dd hb hd th now db).rows[i].deployment_status = st ∧
          (complete_deployment dep st err td dd hb hd th now db).rows[i].error_message = err ∧
          (complete_deployment dep st err td dd hb hd th now db).rows[i].total_duration = td ∧
          (complete_deployment dep st err td dd hb hd th now db).rows[i].downtime_duration = dd ∧
          (complete_deployment dep st err td dd hb hd th now db).rows[i].health_check_success =
            (if hb then 1 else 0) ∧
          (complete_deployment dep st err td dd hb hd th now db).rows[i].health_check_duration = hd ∧
          (complete_deployment dep st err td dd hb hd th now db).rows[i].time_to_healthy = th ∧
          (complete_deployment dep st err td dd hb hd th now db).rows[i].id = db.rows[i].id ∧
          (complete_deployment dep st err td dd hb hd th now db).rows[i].version = db.rows[i].version ∧
          (complete_deployment dep st err td dd hb hd th now db).rows[i].previous_version =
            db.rows[i].previous_version ∧
          (complete_deployment dep st err td dd hb hd th now db).rows[i].deployment_started_at =
            db.rows[i].deployment_started_at ∧
          (complete_deployment dep st err td dd hb hd th now db).rows[i].hostname = db.rows[i].hostname ∧
          (complete_deployment dep st err td dd hb hd th now db).rows[i].os_version = db.rows[i].os_version ∧
          (complete_deployment dep st err td dd hb hd th now db).rows[i].python_version =
            db.rows[i].python_version ∧
          (complete_deployment dep st err td dd hb hd th now db).rows[i].extract_duration =
            db.rows[i].extract_duration ∧
          (complete_deployment dep st err td dd hb hd th now db).rows[i].venv_rebuild_duration =
            db.rows[i].venv_rebuild_duration ∧
          (complete_deployment dep st err td dd hb hd th now db).rows[i].migration_duration =
            db.rows[i].migration_duration ∧
          (complete_deployment dep st err td dd hb hd th now db).rows[i].cutover_duration =
            db.rows[i].cutover_duration ∧
          (complete_deployment dep st err td dd hb hd th now db).rows[i].deployment_method =
            db.rows[i].deployment_method ∧
          (complete_deployment dep st err td dd hb hd th now db).rows[i].notes = db.rows[i].notes)) ∧
    (∀ (dep : Nat) (st : String) (err : Option String) (td dd : Option ℚ) (hb : Bool)
       (hd : Option ℚ) (th : Option String) (now : Nat)
       (st₂ : String) (err₂ : Option String) (td₂ dd₂ : Option ℚ) (hb₂ : Bool)
       (hd₂ : Option ℚ) (th₂ : Option String) (now₂ : Nat) (db : MetricsDB),
        complete_deployment dep st₂ err₂ td₂ dd₂ hb₂ hd₂ th₂ now₂
            (complete_deployment dep st err td dd hb hd th now db) =
          complete_deployment dep st₂ err₂ td₂ dd₂ hb₂ hd₂ th₂ now₂ db) := by
  refine ⟨?_, ?_, ?_⟩
  · intro dep st err td dd hb hd th now db
    simp [complete_deployment]
  · intro dep st err td dd hb hd th now db i h1 h2
    constructor
    · intro hid
      simp [complete_deployment, hid]
    · intro hid
      simp [complete_deployment, hid]
  · intro dep st err td dd hb hd th now st₂ err₂ td₂ dd₂ hb₂ hd₂ th₂ now₂ db
    simp only [complete_deployment, List.map_map, MetricsDB.mk.injEq, and_true]
    refine List.map_congr_left ?_
    intro r _
    by_cases hid : r.id = dep
    · simp [Function.comp, hid]
    · simp [Function.comp, hid]

theorem complete_deployment_overwrites_witness :
    (complete_deployment 1 "success" none (some 40) (some 5) true (some 2) none 9 dbCW).rows.length =
      dbCW.rows.length ∧
    dbCW.rows[1].id ≠ 1 ∧
    (complete_deployment 1 "success" none (some 40) (some 5) true (some 2) none 9 dbCW).rows[1] =
      dbCW.rows[1] ∧
    (complete_deployment 1 "success" none (some 40) (some 5) true (some 2) none 9 dbCW).rows[0].total_duration =
      some 40 ∧
    (complete_deployment 1 "success" none (some 40) (some 5) true (some 2) none 9 dbCW).rows[0].extract_duration =
      dbCW.rows[0].extract_duration ∧
    complete_deployment 1 "failed" (some "x") none none false none none 11
        (complete_deployment 1 "success" none (some 40) (some 5) true (some 2) none 9 dbCW) =
      complete_deployment 1 "failed" (some "x") none none false none none 11 dbCW :=
  ⟨(complete_deployment_overwrites.1 1 "success" none (some 40) (some 5) true (some 2) none 9 dbCW).2,
   by decide,
   (complete_deployment_overwrites.2.1 1 "success" none (some 40) (some 5) true (some 2) none 9 dbCW
      1 (by decide) (by decide)).1 (by decide),
   ((complete_deployment_overwrites.2.1 1 "success" none (some 40) (some 5) true (some 2) none 9 dbCW
      0 (by decide) (by decide)).2 (by decide)).2.2.2.1,
   ((complete_deployment_overwrites.2.1 1 "success" none (some 40) (some 5) true (some 2) none 9 dbCW
      0 (by decide) (by decide)).2 (by decide)).2.2.2.2.2.2.2.2.2.2.2.2.2.2.2.1,
   complete_deployment_overwrites.2.2 1 "success" none (some 40) (some 5) true (some 2) none 9
     "failed" (some "x") none none false none none 11 dbCW⟩

/-! ## Claims C3 and C4: statistics -/

/-- Modelled from the spec: the arithmetic mean of a list of values,
absent when the list is empty. -/
def listMean (l : List ℚ) : Option ℚ :=
  if l = [] then none else some (l.sum / l.length)

lemma avg_foldl_state (vs : List (Option ℚ)) :
    ∀ a : AvgState,
      (vs.foldl avgStep a).sum = a.sum + (vs.filterMap id).sum ∧
      (vs.foldl avgStep a).cnt = a.cnt + (vs.filterMap id).length := by
  induction vs with
  | nil => intro a; simp
  | cons v rest ih =>
    intro a
    cases v with
    | none => simpa [avgStep] using ih a
    | some x =>
      obtain ⟨h1, h2⟩ := ih { sum := a.sum + x, cnt := a.cnt + 1 }
      refine ⟨?_, ?_⟩
      · simp only [List.foldl_cons, avgStep, List.filterMap_cons, id, List.sum_cons] at h1 ⊢
        rw [h1]
        ring
      · simp only [List.foldl_cons, avgStep, List.filterMap_cons, id, List.length_cons] at h2 ⊢
        rw [h2]
        omega

/-- SQLite's `AVG` is the arithmetic mean of the non-NULL inputs. -/
lemma sqlAvg_eq_listMean (vs : List (Option ℚ)) :
    sqlAvg vs = listMean (vs.filterMap id) := by
  obtain ⟨h1, h2⟩ := avg_foldl_state vs { sum := 0, cnt := 0 }
  simp only [sqlAvg, listMean, h1, h2, zero_add]
  by_cases hl : vs.filterMap id = []
  · simp [hl]
  · have hne : (vs.filterMap id).length ≠ 0 := by
      simpa [List.length_eq_zero] using hl
    simp [hl, hne]

lemma filterMap_if_filter {α β : Type} (p : α → Bool) (f : α → Option β) (l : List α) :
    (l.filterMap fun x => if p x then f x else none) = (l.filter p).filterMap f := by
  induction l with
  | nil => rfl
  | cons a rest ih =>
    cases hp : p a
    · simp [List.filter_cons, hp, List.filterMap_cons, ih]
    · cases hfa : f a <;>
        simp [List.filter_cons, hp, List.filterMap_cons, hfa, ih]

/-- C3: every statistics aggregate is computed over the records with
`deployment_status != 'in-progress'` only, and a `start_deployment_tracking`
call (which inserts an `in-progress` record) changes no aggregate. -/
theorem statistics_excludes_in_progress :
    (∀ rows : List DeploymentRow,
      get_deployment_statistics rows =
        get_deployment_statistics
          (rows.filter fun r => !(r.deployment_status == "in-progress"))) ∧
    (∀ (db : MetricsDB) (v : String) (pv hn os py : Option String) (m : String)
       (t i : Nat) (db₁ : MetricsDB),
      start_deployment_tracking v pv hn os py m t db = .ok (i, db₁) →
      get_deployment_statistics db₁.rows = get_deployment_statistics db.rows) := by
  constructor
  · intro rows
    simp [get_deployment_statistics, List.filter_filter]
  · intro db v pv hn os py m t i db₁ hok
    unfold start_deployment_tracking at hok
    by_cases hc : (db.rows.any fun r => r.version == v && r.deployment_started_at == t) = true
    · rw [if_pos hc] at hok
      simp at hok
    · rw [if_neg hc] at hok
      injection hok with hok
      injection hok with hok1 hok2
      subst hok2
      simp [get_deployment_statistics, List.filter_append]

theorem statistics_excludes_in_progress_witness :
    get_deployment_statistics dbCW.rows =
      get_deployment_statistics
        (dbCW.rows.filter fun r => !(r.deployment_status == "in-progress")) ∧
    get_deployment_statistics db1W.rows = get_deployment_statistics dbEmptyW.rows :=
  ⟨statistics_excludes_in_progress.1 dbCW.rows,
   statistics_excludes_in_progress.2 dbEmptyW "2.3.0" none none none none "manual"
     5 1 db1W rfl⟩

/-- A store holding a single in-progress record: it has zero qualifying
rows for the statistics query. -/
def inProgRowW : DeploymentRow :=
  { id := 1, version := "2.4.0", previous_version := none,
    deployment_started_at := 0, deployment_completed_at := none,
    hostname := none, os_version := none, python_version := none,
    extract_duration := none, venv_rebuild_duration := none,
    migration_duration := none, cutover_duration := none,
    total_duration := none, downtime_duration := none,
    health_check_success := 0, health_check_duration := none,
    time_to_healthy := none, deployment_method := "manual",
    deployment_status := "in-progress", error_message := none, notes := none }

/-- C4 counterexample: over zero qualifying rows the `total_deployments`
aggregate (`COUNT(*)`) is reported as the number 0, not as absent — its
column is never NULL — so "any aggregate over zero qualifying rows is
reported as absent rather than zero" fails. -/
theorem statistics_absent_counterexample :
    (get_deployment_statistics [inProgRowW]).total_deployments = 0 ∧
    (get_deployment_statistics []).total_deployments = 0 := by decide

/-- C4 (amended): every average reported by the statistics equals the
arithmetic mean of the non-absent values of its field among the
qualifying records (an absent value contributes nothing); over zero
qualifying rows the average/min/max aggregates and the success/failure
sums are absent, while the count aggregate is the number 0. -/
theorem statistics_averages_amended :
    (∀ rows : List DeploymentRow,
      (get_deployment_statistics rows).avg_duration =
        listMean ((rows.filter fun r => !(r.deployment_status == "in-progress")).filterMap
          fun r => r.total_duration) ∧
      (get_deployment_statistics rows).avg_downtime =
        listMean ((rows.filter fun r => !(r.deployment_status == "in-progress")).filterMap
          fun r => r.downtime_duration) ∧
      (get_deployment_statistics rows).avg_health_check_time =
        listMean (((rows.filter fun r => !(r.deployment_status == "in-progress")).filter
            fun r => r.health_check_success == 1).filterMap
          fun r => r.health_check_duration)) ∧
    (∀ rows : List DeploymentRow,
      (rows.filter fun r => !(r.deployment_status == "in-progress")) = [] →
      get_deployment_statistics rows =
        { total_deployments := 0, avg_duration := none, avg_downtime := none,
          min_duration := none, max_duration := none, successful_deployments := none,
          failed_deployments := none, avg_health_check_time := none }) := by
  constructor
  · intro rows
    refine ⟨?_, ?_, ?_⟩
    · simp only [get_deployment_statistics]
      rw [sqlAvg_eq_listMean, List.filterMap_map]
      rfl
    · simp only [get_deployment_statistics]
      rw [sqlAvg_eq_listMean, List.filterMap_map]
      rfl
    · simp only [get_deployment_statistics]
      rw [sqlAvg_eq_listMean, List.filterMap_map,
        ← filterMap_if_filter (fun r => r.health_check_success == 1)
          (fun r => r.health_check_duration)
          (rows.filter fun r => !(r.deployment_status == "in-progress"))]
      rfl
  · intro rows h
    simp [get_deployment_statistics, h, sqlAvg, sqlMin, sqlMax, sqlSum, listMean]

theorem statistics_averages_amended_witness :
    (get_deployment_statistics dbCW.rows).avg_duration =
      listMean ((dbCW.rows.filter fun r => !(r.deployment_status == "in-progress")).filterMap
        fun r => r.total_duration) ∧
    ([inProgRowW].filter fun r => !(r.deployment_status == "in-progress")) = [] ∧
    get_deployment_statistics [inProgRowW] =
      { total_deployments := 0, avg_duration := none, avg_downtime := none,
        min_duration := none, max_duration := none, successful_deployments := none,
        failed_deployments := none, avg_health_check_time := none } :=
  ⟨(statistics_averages_amended.1 dbCW.rows).1,
   by decide,
   statistics_averages_amended.2 [inProgRowW] (by decide)⟩

/-! ## Claims C2 and C8: the migration loop -/

lemma runRange_append (registry : Nat → Option MStep) (a b : List Nat) :
    ∀ (s : Store) (w : List Nat),
      runRange registry (a ++ b) s w =
        if (runRange registry a s w).exit = 0 then
          runRange registry b (runRange registry a s w).store (runRange registry a s w).warnings
        else runRange registry a s w := by
  induction a with
  | nil => intro s w; simp [runRange]
  | cons v rest ih =>
    intro s w
    cases hr : registry v with
    | none => simp [runRange, hr, ih]
    | some f =>
      cases hf : f s with
      | ok s' => simp [runRange, hr, hf, ih]
      | error e => simp [runRange, hr, hf]

/-- C2: if every step before version `v` committed and the registered
step for `v` raises, `main` exits with code 1 and the database is left
exactly in the state committed by the steps before `v` — the failing
step's changes are rolled back, nothing is half-migrated. -/
theorem migration_failure_aborts (registry : Nat → Option MStep) (target : Nat)
    (s0 sv : Store) (w : List Nat) (v : Nat) (f : MStep) (e : String)
    (hv1 : get_schema_version (create_schema_version_table s0).schema_version < v)
    (hv2 : v ≤ target)
    (hpre : runRange registry
        (List.range'
          (get_schema_version (create_schema_version_table s0).schema_version + 1)
          (v - 1 - get_schema_version (create_schema_version_table s0).schema_version))
        (create_schema_version_table s0) [] =
      { exit := 0, store := sv, warnings := w })
    (hreg : registry v = some f) (hfail : f sv = .error e) :
    migrate_main registry target s0 = { exit := 1, store := sv, warnings := w } := by
  simp only [migrate_main]
  rw [if_neg (by omega)]
  have hsplit : List.range'
      (get_schema_version (create_schema_version_table s0).schema_version + 1)
      (target - get_schema_version (create_schema_version_table s0).schema_version) =
      List.range'
        (get_schema_version (create_schema_version_table s0).schema_version + 1)
        (v - 1 - get_schema_version (create_schema_version_table s0).schema_version) ++
      List.range' v (target - v + 1) := by
    have h1 := List.range'_append_1
      (get_schema_version (create_schema_version_table s0).schema_version + 1)
      (v - 1 - get_schema_version (create_schema_version_table s0).schema_version)
      (target - v + 1)
    rw [show get_schema_version (create_schema_version_table s0).schema_version + 1 +
        (v - 1 - get_schema_version (create_schema_version_table s0).schema_version) = v
      by omega] at h1
    rw [h1]
    congr 1
    omega
  rw [hsplit, runRange_append, hpre]
  rw [if_pos rfl]
  rw [show target - v + 1 = (target - v) + 1 by omega, List.range'_succ]
  simp [runRange, hreg, hfail]

/-- The states the loop commits when every encountered step returns:
registered steps are applied in order, unregistered versions are
skipped. -/
def applyAll (registry : Nat → Option MStep) : List Nat → Store → Store
  | [], s => s
  | v :: rest, s =>
    match registry v with
    | some f => applyAll registry rest ((f s).toOption.getD s)
    | none => applyAll registry rest s

lemma runRange_of_total (registry : Nat → Option MStep)
    (htotal : ∀ v g, registry v = some g → ∀ st, ∃ st', g st = .ok st') :
    ∀ (l : List Nat) (s : Store) (w : List Nat),
      runRange registry l s w =
        { exit := 0, store := applyAll registry l s,
          warnings := w ++ l.filter (fun v => (registry v).isNone) } := by
  intro l
  induction l with
  | nil => intro s w; simp [runRange, applyAll]
  | cons v rest ih =>
    intro s w
    cases hr : registry v with
    | none => simp [runRange, applyAll, hr, ih, List.filter_cons]
    | some f =>
      obtain ⟨s', hs'⟩ := htotal v f hr s
      simp [runRange, applyAll, hr, hs', ih, List.filter_cons, Except.toOption]

/-- C8: when the registered steps themselves return normally, a missing
version in the pending range only produces a warning: the run completes
with exit code 0, warns exactly on the unregistered versions of the
range, and applies every registered step of the range in increasing
order. -/
theorem missing_migration_warns_and_continues (registry : Nat → Option MStep)
    (target : Nat) (s0 : Store)
    (htotal : ∀ v g, registry v = some g → ∀ st, ∃ st', g st = .ok st') :
    migrate_main registry target s0 =
      { exit := 0,
        store := applyAll registry
          (List.range'
            (get_schema_version (create_schema_version_table s0).schema_version + 1)
            (target - get_schema_version (create_schema_version_table s0).schema_version))
          (create_schema_version_table s0),
        warnings := (List.range'
            (get_schema_version (create_schema_version_table s0).schema_version + 1)
            (target - get_schema_version (create_schema_version_table s0).schema_version)).filter
          (fun v => (registry v).isNone) } := by
  simp only [migrate_main]
  by_cases hc : target ≤ get_schema_version (create_schema_version_table s0).schema_version
  · rw [if_pos hc]
    rw [show target - get_schema_version (create_schema_version_table s0).schema_version = 0
      by omega]
    simp [applyAll]
  · rw [if_neg hc]
    rw [runRange_of_total registry htotal]
    simp

/-- A registered step that only creates tables and always returns. -/
def gap_step_a : MStep := fun s => .ok (creates_v1 s)

/-- A second always-returning registered step. -/
def gap_step_b : MStep := fun s => .ok (creates_v3 s)

/-- A registry with a gap: versions 1 and 3 are registered, version 2 is
not. -/
def regGapW : Nat → Option MStep :=
  fun n => if n = 1 then some gap_step_a else if n = 3 then some gap_step_b else none

theorem missing_migration_warns_and_continues_witness :
    migrate_main regGapW 3 freshStore =
      { exit := 0,
        store := applyAll regGapW
          (List.range'
            (get_schema_version (create_schema_version_table freshStore).schema_version + 1)
            (3 - get_schema_version (create_schema_version_table freshStore).schema_version))
          (create_schema_version_table freshStore),
        warnings := (List.range'
            (get_schema_version (create_schema_version_table freshStore).schema_version + 1)
            (3 - get_schema_version (create_schema_version_table freshStore).schema_version)).filter
          (fun v => (regGapW v).isNone) } ∧
    (migrate_main regGapW 3 freshStore).warnings = [2] ∧
    (migrate_main regGapW 3 freshStore).exit = 0 :=
  ⟨missing_migration_warns_and_continues regGapW 3 freshStore (by
      intro v g hg st
      by_cases h1 : v = 1
      · subst h1
        simp [regGapW] at hg
        subst hg
        exact ⟨_, rfl⟩
      · by_cases h2 : v = 3
        · subst h2
          simp [regGapW] at hg
          subst hg
          exact ⟨_, rfl⟩
        · simp [regGapW, h1, h2] at hg),
   by decide, by decide⟩

/-- A step that raises, to exercise the abort path. -/
def failing_step : MStep := fun _ => .error "simulated step failure"

/-- A registry whose step for version 2 raises. -/
def regFailW : Nat → Option MStep :=
  fun n => if n = 1 then some apply_migration_v1 else if n = 2 then some failing_step else none

/-- The store committed by step 1 on a fresh database. -/
def svW : Store :=
  { schema_version := some [⟨1, "Initial schema - DICOM studies and logs", 0⟩],
    dicom_studies := true, gateway_logs := true, clock := 0 }

theorem migration_failure_aborts_witness :
    get_schema_version (create_schema_version_table freshStore).schema_version < 2 ∧
    runRange regFailW
        (List.range'
          (get_schema_version (create_schema_version_table freshStore).schema_version + 1)
          (2 - 1 - get_schema_version (create_schema_version_table freshStore).schema_version))
        (create_schema_version_table freshStore) [] =
      { exit := 0, store := svW, warnings := [] } ∧
    regFailW 2 = some failing_step ∧
    migrate_main regFailW 2 freshStore = { exit := 1, store := svW, warnings := [] } :=
  ⟨by decide, by decide, rfl,
   migration_failure_aborts regFailW 2 freshStore svW [] 2 failing_step
     "simulated step failure" (by decide) (by decide) (by decide) rfl rfl⟩

/-! ## Claim C5: running `main` twice

Uniform description of the four registered steps: each is the
`CREATE ... IF NOT EXISTS` statements followed by the
`INSERT OR IGNORE` of its `schema_version` row. -/

/-- The `description` each migration writes. -/
def migration_desc : Nat → String
  | 1 => "Initial schema - DICOM studies and logs"
  | 2 => "Added performance metrics table"
  | 3 => "Added deployment history tracking"
  | 4 => "Enhanced deployment metrics with VM info and phase timing"
  | _ => ""

/-- The `CREATE ... IF NOT EXISTS` part of each migration. -/
def migration_creates : Nat → Store → Store
  | 1 => creates_v1
  | 2 => creates_v2
  | 3 => creates_v3
  | 4 => creates_v4
  | _ => id

/-- The tables and indexes migration `v` creates are present. -/
def flagsSet : Nat → Store → Prop
  | 1, s => s.dicom_studies = true ∧ s.gateway_logs = true
  | 2, s => s.performance_metrics = true ∧ s.idx_metrics_timestamp = true
  | 3, s => s.deployment_history = true ∧ s.idx_deployment_version = true ∧
      s.idx_deployment_date = true
  | 4, s => s.deployment_metrics.isSome = true ∧ s.idx_metrics_version = true ∧
      s.idx_metrics_started = true ∧ s.idx_metrics_status = true
  | _, _ => True

lemma MIGRATIONS_bounds_eq (v : Nat) (h1 : 1 ≤ v) (h2 : v ≤ 4) :
    MIGRATIONS v =
      some (fun s => insert_schema_version v (migration_desc v) (migration_creates v s)) := by
  interval_cases v <;> rfl

lemma creates_schema (v : Nat) (s : Store) :
    (migration_creates v s).schema_version = s.schema_version := by
  rcases v with _ | _ | _ | _ | _ | v <;> rfl

lemma creates_flagsSet_self (v : Nat) (s : Store) :
    flagsSet v (migration_creates v s) := by
  rcases v with _ | _ | _ | _ | _ | v
  · trivial
  · exact ⟨rfl, rfl⟩
  · exact ⟨rfl, rfl⟩
  · exact ⟨rfl, rfl, rfl⟩
  · exact ⟨rfl, rfl, rfl, rfl⟩
  · trivial

lemma creates_flags_mono (v u : Nat) (s : Store) (h : flagsSet u s) :
    flagsSet u (migration_creates v s) := by
  rcases v with _ | _ | _ | _ | _ | v <;>
    rcases u with _ | _ | _ | _ | _ | u <;>
    simp_all [migration_creates, creates_v1, creates_v2, creates_v3, creates_v4, flagsSet]

lemma creates_noop (v : Nat) (s : Store) (h : flagsSet v s) :
    migration_creates v s = s := by
  rcases v with _ | _ | _ | _ | _ | v
  · rfl
  · obtain ⟨h1, h2⟩ := h
    rcases s
    simp_all [migration_creates, creates_v1]
  · obtain ⟨h1, h2⟩ := h
    rcases s
    simp_all [migration_creates, creates_v2]
  · obtain ⟨h1, h2, h3⟩ := h
    rcases s
    simp_all [migration_creates, creates_v3]
  · obtain ⟨h1, h2, h3, h4⟩ := h
    rcases s with ⟨sv, d, g, pm, imt, dh, idv, idd, dm, imv, ims, imss, c⟩
    cases dm with
    | none => simp at h1
    | some m => simp_all [migration_creates, creates_v4]
  · rfl

/-- `flagsSet` only reads the table/index flags, so it is unaffected by
changing the `schema_version` rows. -/
lemma flagsSet_update (u : Nat) (s : Store) (x : Option (List SchemaRow)) :
    flagsSet u { s with schema_version := x } ↔ flagsSet u s := by
  rcases u with _ | _ | _ | _ | _ | u <;> exact Iff.rfl

lemma insert_version_present (v : Nat) (d : String) (s : Store) (rows : List SchemaRow)
    (hs : s.schema_version = some rows) (hmem : v ∈ schemaVersions rows) :
    insert_schema_version v d s = .ok s := by
  have hany : (rows.any fun r => r.version == v) = true := by
    simp only [schemaVersions, List.mem_map] at hmem
    obtain ⟨r, hr, hrv⟩ := hmem
    simp only [List.any_eq_true]
    exact ⟨r, hr, by simp [hrv]⟩
  unfold insert_schema_version
  rw [hs]
  simp only []
  rw [if_pos hany]

lemma insert_version_absent (v : Nat) (d : String) (s : Store) (rows : List SchemaRow)
    (hs : s.schema_version = some rows) (hmem : v ∉ schemaVersions rows) :
    insert_schema_version v d s = .ok { s with
      schema_version := some (rows ++ [⟨v, d, s.clock⟩]) } := by
  have hany : (rows.any fun r => r.version == v) = false := by
    rw [← Bool.not_eq_true, List.any_eq_true]
    rintro ⟨r, hr, hrv⟩
    exact hmem (by
      simp only [schemaVersions, List.mem_map]
      exact ⟨r, hr, by simpa using hrv⟩)
  unfold insert_schema_version
  rw [hs]
  simp only []
  rw [if_neg (by simp [hany])]

lemma schemaVersions_append (xs ys : List SchemaRow) :
    schemaVersions (xs ++ ys) = schemaVersions xs ++ schemaVersions ys := by
  simp [schemaVersions]

lemma schemaVersions_cons (r : SchemaRow) (rows : List SchemaRow) :
    schemaVersions (r :: rows) = r.version :: schemaVersions rows := rfl

lemma schemaVersions_nil : schemaVersions [] = [] := rfl

/-- Running the loop over registered versions (all in `1..4`) on a store
whose tracking table holds `rows`: the run exits 0 with no new warnings;
the table grows by a suffix `extra` of rows whose versions come from the
range; every requested version is present afterwards; table/index flags
only grow; and version uniqueness is preserved (`INSERT OR IGNORE` never
duplicates a primary key). -/
lemma runRange_MIGRATIONS (L : List Nat) :
    ∀ (s : Store) (rows : List SchemaRow) (w : List Nat),
      s.schema_version = some rows →
      (∀ v ∈ L, 1 ≤ v ∧ v ≤ 4) →
      ∃ (s' : Store) (extra : List SchemaRow),
        runRange MIGRATIONS L s w = { exit := 0, store := s', warnings := w } ∧
        s'.schema_version = some (rows ++ extra) ∧
        (∀ r ∈ extra, r.version ∈ L) ∧
        (∀ v ∈ L, v ∈ schemaVersions (rows ++ extra)) ∧
        (∀ u, flagsSet u s → flagsSet u s') ∧
        (∀ v ∈ L, flagsSet v s') ∧
        ((schemaVersions rows).Nodup → (schemaVersions (rows ++ extra)).Nodup) := by
  induction L with
  | nil =>
    intro s rows w hs _
    refine ⟨s, [], by simp [runRange], by simp [hs], by simp, by simp, ?_, by simp, ?_⟩
    · exact fun u hu => hu
    · intro h
      simpa using h
  | cons v rest ih =>
    intro s rows w hs hL
    obtain ⟨hv1, hv4⟩ := hL v (List.mem_cons_self _ _)
    have hstep := MIGRATIONS_bounds_eq v hv1 hv4
    have hscs : (migration_creates v s).schema_version = some rows := by
      rw [creates_schema, hs]
    by_cases hmem : v ∈ schemaVersions rows
    · -- the version is already recorded: the INSERT OR IGNORE is a no-op
      have hins := insert_version_present v (migration_desc v) (migration_creates v s) rows
        hscs hmem
      obtain ⟨s', extra, hrun, hschema, hextra, hall, hmono, hflags, hnodup⟩ :=
        ih (migration_creates v s) rows w hscs
          (fun u hu => hL u (List.mem_cons_of_mem _ hu))
      refine ⟨s', extra, ?_, hschema, ?_, ?_, ?_, ?_, hnodup⟩
      · rw [show runRange MIGRATIONS (v :: rest) s w =
            runRange MIGRATIONS rest (migration_creates v s) w by
          simp [runRange, hstep, hins]]
        exact hrun
      · intro r hr
        exact List.mem_cons_of_mem _ (hextra r hr)
      · intro u hu
        rcases List.mem_cons.mp hu with hu | hu
        · subst hu
          rw [schemaVersions_append]
          exact List.mem_append_left _ hmem
        · exact hall u hu
      · intro u hu
        exact hmono u (creates_flags_mono v u s hu)
      · intro u hu
        rcases List.mem_cons.mp hu with hu | hu
        · subst hu
          exact hmono u (creates_flagsSet_self u s)
        · exact hflags u hu
    · -- fresh version: the row is inserted, stamped with the current clock
      have hins := insert_version_absent v (migration_desc v) (migration_creates v s) rows
        hscs hmem
      set nrow : SchemaRow := ⟨v, migration_desc v, (migration_creates v s).clock⟩ with hnrow
      set s1 : Store := { migration_creates v s with
        schema_version := some (rows ++ [nrow]) } with hs1
      have hs1s : s1.schema_version = some (rows ++ [nrow]) := rfl
      obtain ⟨s', extra, hrun, hschema, hextra, hall, hmono, hflags, hnodup⟩ :=
        ih s1 (rows ++ [nrow]) w hs1s
          (fun u hu => hL u (List.mem_cons_of_mem _ hu))
      refine ⟨s', nrow :: extra, ?_, ?_, ?_, ?_, ?_, ?_, ?_⟩
      · rw [show runRange MIGRATIONS (v :: rest) s w = runRange MIGRATIONS rest s1 w by
          simp [runRange, hstep, hins]]
        exact hrun
      · rw [hschema]
        simp
      · intro r hr
        rcases List.mem_cons.mp hr with hr | hr
        · subst hr
          exact List.mem_cons_self _ _
        · exact List.mem_cons_of_mem _ (hextra r hr)
      · intro u hu
        rcases List.mem_cons.mp hu with hu | hu
        · subst hu
          rw [schemaVersions_append, schemaVersions_cons]
          refine List.mem_append_right _ ?_
          rw [hnrow]
          exact List.mem_cons_self _ _
        · have := hall u hu
          simp only [schemaVersions_append, schemaVersions_cons, schemaVersions_nil,
            List.mem_append, List.mem_cons, List.not_mem_nil, or_false] at this ⊢
          tauto
      · intro u hu
        refine hmono u ?_
        rw [hs1, flagsSet_update]
        exact creates_flags_mono v u s hu
      · intro u hu
        rcases List.mem_cons.mp hu with hu | hu
        · subst hu
          refine hmono u ?_
          rw [hs1, flagsSet_update]
          exact creates_flagsSet_self u s
        · exact hflags u hu
      · intro hnd
        have hnd1 : (schemaVersions (rows ++ [nrow])).Nodup := by
          simp only [schemaVersions, List.map_append, List.map_cons, List.map_nil]
          rw [List.nodup_append]
          refine ⟨hnd, by simp, ?_⟩
          intro a ha
          simp only [hnrow, List.mem_cons, List.not_mem_nil, or_false]
          intro hav
          subst hav
          exact hmem ha
        have := hnodup hnd1
        rw [List.append_assoc] at this
        exact this

/-- Re-running the loop over versions that are all registered, already
recorded, and whose tables and indexes already exist changes nothing:
every `CREATE ... IF NOT EXISTS` and `INSERT OR IGNORE` is a no-op. -/
lemma runRange_MIGRATIONS_noop (L : List Nat) :
    ∀ (s : Store) (rows : List SchemaRow) (w : List Nat),
      s.schema_version = some rows →
      (∀ v ∈ L, (1 ≤ v ∧ v ≤ 4) ∧ v ∈ schemaVersions rows ∧ flagsSet v s) →
      runRange MIGRATIONS L s w = { exit := 0, store := s, warnings := w } := by
  induction L with
  | nil => intro s rows w _ _; simp [runRange]
  | cons v rest ih =>
    intro s rows w hs hL
    obtain ⟨⟨hv1, hv4⟩, hmem, hfl⟩ := hL v (List.mem_cons_self _ _)
    have hstep := MIGRATIONS_bounds_eq v hv1 hv4
    have hcr : migration_creates v s = s := creates_noop v s hfl
    have hins : insert_schema_version v (migration_desc v) (migration_creates v s) = .ok s := by
      rw [hcr]
      exact insert_version_present v (migration_desc v) s rows hs hmem
    rw [show runRange MIGRATIONS (v :: rest) s w = runRange MIGRATIONS rest s w by
      simp [runRange, hstep, hins]]
    exact ih s rows w hs (fun u hu => hL u (List.mem_cons_of_mem _ hu))

lemma latestRow_append (xs ys : List SchemaRow) :
    latestRow (xs ++ ys) =
      match latestRow xs, latestRow ys with
      | a, none => a
      | none, some b => some b
      | some a, some b => if a.applied_at > b.applied_at then some a else some b := by
  induction xs with
  | nil =>
    simp only [List.nil_append, latestRow]
    cases latestRow ys <;> rfl
  | cons x xs ih =>
    rw [List.cons_append, latestRow_cons, latestRow_cons, ih]
    cases hx : latestRow xs with
    | none => cases hy : latestRow ys with
      | none => rfl
      | some b => rfl
    | some a => cases hy : latestRow ys with
      | none => by_cases h2 : x.applied_at > a.applied_at <;> simp [h2]
      | some b =>
        by_cases h1 : a.applied_at > b.applied_at <;>
          by_cases h2 : x.applied_at > a.applied_at <;>
          by_cases h3 : x.applied_at > b.applied_at <;>
          simp [h1, h2, h3] <;>
          first | rfl | (exfalso; omega)

lemma create_schema (s0 : Store) :
    (create_schema_version_table s0).schema_version = some (storeRows s0) := by
  cases h : s0.schema_version <;> simp [create_schema_version_table, storeRows, h]

lemma create_of_some (s : Store) (rows : List SchemaRow)
    (h : s.schema_version = some rows) : create_schema_version_table s = s := by
  simp [create_schema_version_table, h]

lemma get_schema_version_some (rows : List SchemaRow) :
    get_schema_version (some rows) =
      match latestRow rows with
      | none => 0
      | some r => r.version := rfl

/-- A store the engine never produces: version 4 was stamped before
version 2, so the most recently applied row is version 2. -/
def sCE : Store :=
  { schema_version := some [⟨4, "d", 10⟩, ⟨2, "c", 20⟩], clock := 30 }

/-- C5 counterexample: on `sCE` the second `main` run does not report
"already up to date" — after the first run the reported current version
is still below the target, so the second run takes the re-apply branch
(it exits 0 and changes nothing, but the claim's "reporting already up
to date" fails). -/
theorem migrate_twice_counterexample :
    get_schema_version
        (migrate_main MIGRATIONS TARGET_VERSION sCE).store.schema_version < TARGET_VERSION ∧
    (migrate_main MIGRATIONS TARGET_VERSION
        (migrate_main MIGRATIONS TARGET_VERSION sCE).store).exit = 0 ∧
    (migrate_main MIGRATIONS TARGET_VERSION
        (migrate_main MIGRATIONS TARGET_VERSION sCE).store).store =
      (migrate_main MIGRATIONS TARGET_VERSION sCE).store := by
  decide

/-- C5 (amended): for every store state, running `main` twice is
harmless: the second run exits 0 and leaves the store byte-for-byte
unchanged, and no duplicate `schema_version` rows are ever produced
(version uniqueness is preserved by the first run and the second run
adds nothing).  The claim's "reporting already up to date" is not part
of the amendment: the second run's version read-back orders by
`applied_at`, and the rows a run inserts all share one second-granularity
`CURRENT_TIMESTAMP` stamp, so the code does not guarantee that the
read-back after the first run reaches the target. -/
theorem migrate_twice_amended (s0 : Store) :
    (migrate_main MIGRATIONS TARGET_VERSION
        (migrate_main MIGRATIONS TARGET_VERSION s0).store).exit = 0 ∧
    (migrate_main MIGRATIONS TARGET_VERSION
        (migrate_main MIGRATIONS TARGET_VERSION s0).store).store =
      (migrate_main MIGRATIONS TARGET_VERSION s0).store ∧
    ((schemaVersions (storeRows s0)).Nodup →
      (schemaVersions (storeRows (migrate_main MIGRATIONS TARGET_VERSION s0).store)).Nodup) := by
  have hcs := create_schema s0
  by_cases hc : TARGET_VERSION ≤ get_schema_version (create_schema_version_table s0).schema_version
  · -- already up to date: the first run changes nothing
    have hr1 : migrate_main MIGRATIONS TARGET_VERSION s0 =
        { exit := 0, store := create_schema_version_table s0, warnings := [] } := by
      simp only [migrate_main]
      rw [if_pos hc]
    have hr2 : migrate_main MIGRATIONS TARGET_VERSION (create_schema_version_table s0) =
        { exit := 0, store := create_schema_version_table s0, warnings := [] } := by
      simp only [migrate_main]
      rw [create_of_some _ _ hcs, if_pos hc]
    refine ⟨?_, ?_, ?_⟩
    · rw [hr1]
      simp only []
      rw [hr2]
    · rw [hr1]
      simp only []
      rw [hr2]
    · intro hnd
      rw [hr1]
      simp only [storeRows, hcs]
      simpa [storeRows] using hnd
  · -- pending migrations: the first run applies the range, the second is a no-op
    push_neg at hc
    have hL : ∀ v ∈ List.range'
        (get_schema_version (create_schema_version_table s0).schema_version + 1)
        (TARGET_VERSION - get_schema_version (create_schema_version_table s0).schema_version),
        1 ≤ v ∧ v ≤ 4 := by
      intro v hv
      have := List.mem_range'_1.mp hv
      simp only [TARGET_VERSION] at this hc
      omega
    obtain ⟨s', extra, hrun, hschema, hextra, hall, hmono, hflags, hnodup⟩ :=
      runRange_MIGRATIONS
        (List.range'
          (get_schema_version (create_schema_version_table s0).schema_version + 1)
          (TARGET_VERSION - get_schema_version (create_schema_version_table s0).schema_version))
        (create_schema_version_table s0) (storeRows s0) [] hcs hL
    have hr1 : migrate_main MIGRATIONS TARGET_VERSION s0 =
        { exit := 0, store := s', warnings := [] } := by
      simp only [migrate_main]
      rw [if_neg (by omega), hrun]
    -- the current version after the first run is at least the one before it
    have hcur1cases : get_schema_version (some (storeRows s0 ++ extra)) =
        get_schema_version (some (storeRows s0)) ∨
        get_schema_version (some (storeRows s0 ++ extra)) ∈ List.range'
          (get_schema_version (create_schema_version_table s0).schema_version + 1)
          (TARGET_VERSION - get_schema_version (create_schema_version_table s0).schema_version) := by
      rw [get_schema_version_some (storeRows s0 ++ extra), latestRow_append]
      cases hx : latestRow (storeRows s0) with
      | none =>
        cases he : latestRow extra with
        | none =>
          left
          rw [get_schema_version_some, hx]
        | some b =>
          right
          exact hextra b (latestRow_spec extra b he).1
      | some a =>
        cases he : latestRow extra with
        | none =>
          left
          rw [get_schema_version_some, hx]
        | some b =>
          by_cases hab : a.applied_at > b.applied_at
          · left
            simp only [if_pos hab]
            rw [get_schema_version_some, hx]
          · right
            simp only [if_neg hab]
            exact hextra b (latestRow_spec extra b he).1
    have hcur0 : get_schema_version (create_schema_version_table s0).schema_version =
        get_schema_version (some (storeRows s0)) := by rw [hcs]
    have hcur1ge : get_schema_version (create_schema_version_table s0).schema_version ≤
        get_schema_version (some (storeRows s0 ++ extra)) := by
      rcases hcur1cases with h | h
      · omega
      · have := List.mem_range'_1.mp h
        omega
    -- the second run is a no-op: every pending version is recorded with its tables present
    have hr2 : migrate_main MIGRATIONS TARGET_VERSION s' =
        { exit := 0, store := s', warnings := [] } := by
      simp only [migrate_main]
      rw [create_of_some _ _ hschema, hschema]
      by_cases hc1 : TARGET_VERSION ≤ get_schema_version (some (storeRows s0 ++ extra))
      · rw [if_pos hc1]
      · rw [if_neg hc1]
        push_neg at hc1
        refine runRange_MIGRATIONS_noop _ s' (storeRows s0 ++ extra) [] hschema ?_
        intro v hv
        have hvb := List.mem_range'_1.mp hv
        simp only [TARGET_VERSION] at hvb hc1
        have hvL : v ∈ List.range'
            (get_schema_version (create_schema_version_table s0).schema_version + 1)
            (TARGET_VERSION - get_schema_version (create_schema_version_table s0).schema_version) := by
          refine List.mem_range'_1.mpr ?_
          simp only [TARGET_VERSION]
          omega
        exact ⟨⟨by omega, by omega⟩, hall v hvL, hflags v hvL⟩
    refine ⟨?_, ?_, ?_⟩
    · rw [hr1]
      simp only []
      rw [hr2]
    · rw [hr1]
      simp only []
      rw [hr2]
    · intro hnd
      rw [hr1]
      simp only [storeRows, hschema]
      have := hnodup (by simpa [storeRows] using hnd)
      simpa [storeRows] using this

theorem migrate_twice_amended_witness :
    (migrate_main MIGRATIONS TARGET_VERSION
        (migrate_main MIGRATIONS TARGET_VERSION freshStore).store).exit = 0 ∧
    (migrate_main MIGRATIONS TARGET_VERSION
        (migrate_main MIGRATIONS TARGET_VERSION freshStore).store).store =
      (migrate_main MIGRATIONS TARGET_VERSION freshStore).store ∧
    (schemaVersions (storeRows (migrate_main MIGRATIONS TARGET_VERSION freshStore).store)).Nodup := by
  obtain ⟨h1, h2, h3⟩ := migrate_twice_amended freshStore
  exact ⟨h1, h2, h3 (by decide)⟩

end Spec2Proof
